import Mathlib

/-!
Verification of the exchange-rate resolution and caching subsystem of
valutatrade_hub, shallowly embedded from the Python source.

Conventions of the embedding:
* rates are modelled as rationals (`ℚ`); timestamps as natural numbers
  (seconds); JSON dictionaries as association lists with a replace-or-append
  insert, matching Python dict update semantics;
* a timestamp string that is absent or unparseable is modelled as `none`;
* fallible Python code is modelled with `Except`/`Option`; side effects on
  the persisted files are modelled by threading the cache value and counting
  writes explicitly.
-/

namespace ValutaTradeHub

/-- A rate entry as persisted in `rates.json` by the parser service:
`{"rate": ..., "updated_at": ..., "source": ...}`
(`storage.py`, `update_rates_cache`). `updated_at = none` models an absent
or unparseable timestamp string. -/
structure RateEntry where
  rate : ℚ
  updated_at : Option ℕ
  source : String
deriving DecidableEq, Repr

/-- The `pairs` dictionary of the rates cache, as an association list. -/
abbrev Pairs := List (String × RateEntry)

/-- Dictionary lookup `pairs.get(key)`. -/
def lookupPair : Pairs → String → Option RateEntry
  | [], _ => none
  | (k, e) :: rest, key => if k = key then some e else lookupPair rest key

/-- Dictionary assignment `pairs[key] = entry`: replaces the existing binding
in place, else appends. -/
def insertPair : Pairs → String → RateEntry → Pairs
  | [], key, entry => [(key, entry)]
  | (k, e) :: rest, key, entry =>
      if k = key then (key, entry) :: rest else (k, e) :: insertPair rest key entry

/-- The rates cache file structure: `{"pairs": {...}, "last_refresh": ...}`. -/
structure RatesCache where
  pairs : Pairs
  last_refresh : Option ℕ
deriving DecidableEq, Repr

/-- The recency test of `RatesStorage.update_rates_cache`
(`storage.py` lines 97-115): `should_update` starts `True`; when the existing
entry carries a parseable timestamp and `existing_dt >= new_dt`, it becomes
`False`.  So the new value is written exactly when there is no existing
entry, or its timestamp is missing/unparseable, or it is strictly older
than the new timestamp. -/
def shouldUpdate (existing : Option RateEntry) (newTs : ℕ) : Bool :=
  match existing with
  | none => true
  | some e =>
      match e.updated_at with
      | none => true
      | some ets => decide (ets < newTs)

/-- The per-pair merge loop of `RatesStorage.update_rates_cache`
(`storage.py` lines 97-122), iterating over the fetched `rates` dict and
updating `pairs` in place. -/
def mergeRates (ps : Pairs) (rates : List (String × ℚ))
    (sources : String → Option String) (now : ℕ) : Pairs :=
  match rates with
  | [] => ps
  | (k, r) :: rest =>
      let ps' :=
        if shouldUpdate (lookupPair ps k) now then
          insertPair ps k { rate := r, updated_at := some now,
                            source := (sources k).getD "Unknown" }
        else ps
      mergeRates ps' rest sources now

/-- Embedding of `RatesStorage.update_rates_cache` (`storage.py` lines 78-127): merge the
fetched rates into the loaded cache under the recency rule, then stamp
`last_refresh` with the current timestamp. -/
def update_rates_cache (cache : RatesCache) (rates : List (String × ℚ))
    (sources : String → Option String) (now : ℕ) : RatesCache :=
  { pairs := mergeRates cache.pairs rates sources now, last_refresh := some now }

/-! ## Loading the persisted files -/

/-- The observable state of a persisted JSON file holding a value of type
`α`: absent, present but unparseable, or present with parsed content. -/
inductive JFile (α : Type) where
  | absent
  | corrupt
  | valid (a : α)
deriving DecidableEq, Repr

/-- Embedding of `RatesStorage._load_rates_cache` (`storage.py` lines 180-204): an absent
or unparseable file yields the empty cache; a parsed file missing the
`pairs` dictionary (modelled `none`) has it filled with `{}`. -/
def load_rates_cache : JFile (Option Pairs × Option ℕ) → RatesCache
  | .absent => { pairs := [], last_refresh := none }
  | .corrupt => { pairs := [], last_refresh := none }
  | .valid (ps, lr) => { pairs := ps.getD [], last_refresh := lr }

/-- Embedding of `load_json` (`core/utils.py` lines 14-39), used by the resolver to read
`rates.json`: an absent file is created with the default content, which is
returned; an unparseable file raises `json.JSONDecodeError`, which
propagates. -/
def load_json {α : Type} (defaultData : α) : JFile α → Except Unit α
  | .absent => .ok defaultData
  | .corrupt => .error ()
  | .valid a => .ok a

/-! ## Atomic save (`_save_rates_cache_atomic` / `_save_history_atomic`)

Both savers in `storage.py` (lines 157-178 and 206-227) are the same
two-step procedure on different target paths: write the serialized data to
`<target>.tmp`, then `temp_file.replace(target)`; on any exception, unlink
the temp file when it exists and re-raise.  The file system is modelled by
the contents of the canonical file and of the staging file; the outcomes of
the two fallible steps are injected as parameters. -/

/-- Canonical file content and staging (`.tmp`) file content;
`none` = the file does not exist. -/
structure FS where
  canonical : Option String
  temp : Option String
deriving DecidableEq, Repr

/-- Outcome of the staging write: it either completes, or raises after
having written some prefix of the data (possibly nothing at all). -/
inductive StageOutcome where
  | ok
  | failMid (leftover : Option String)
deriving Repr

/-- Outcome of `temp_file.replace(target)`. -/
inductive ReplaceOutcome where
  | ok
  | fail
deriving Repr

/-- Writing the full serialized data into the staging file. -/
def stageTemp (data : String) (fs : FS) : FS :=
  { fs with temp := some data }

/-- The `temp_file.replace(target)` step: one atomic rename of the staging file onto
the canonical path. -/
def atomicReplace (fs : FS) : FS :=
  match fs.temp with
  | some t => { canonical := some t, temp := none }
  | none => fs

/-- The `except` cleanup: `if temp_file.exists(): temp_file.unlink()`. -/
def cleanupTemp (fs : FS) : FS :=
  { fs with temp := none }

/-- Result of a save attempt: whether an exception propagated, and the
resulting file-system state. -/
structure SaveResult where
  raised : Bool
  fs : FS
deriving DecidableEq, Repr

/-- Embedding of `RatesStorage._save_rates_cache_atomic` / `_save_history_atomic`
(`storage.py` lines 206-227 and 157-178): stage, then atomically replace;
on failure of either step, delete the staging file and propagate. -/
def save_atomic (data : String) (fs : FS) (w : StageOutcome)
    (r : ReplaceOutcome) : SaveResult :=
  match w with
  | .failMid leftover => { raised := true, fs := cleanupTemp { fs with temp := leftover } }
  | .ok =>
      let staged := stageTemp data fs
      match r with
      | .fail => { raised := true, fs := cleanupTemp staged }
      | .ok => { raised := false, fs := atomicReplace staged }

/-! ## The updater (`parser_service/updater.py`) -/

/-- An API client as seen by `RatesUpdater.run_update`: its class name (used
in error messages), its source label (`"CoinGecko"`, `"ExchangeRate-API"`,
or the class name for other clients, `updater.py` lines 86-92), and the
outcome of its single `fetch_rates()` call. -/
structure Client where
  name : String
  label : String
  fetch : Except String (List (String × ℚ))

/-- Dictionary lookup in a string-valued dict. -/
def lookupStr : List (String × String) → String → Option String
  | [], _ => none
  | (k, v) :: rest, key => if k = key then some v else lookupStr rest key

/-- Dictionary assignment in the rates merge buffer `all_rates`. -/
def insertRate : List (String × ℚ) → String → ℚ → List (String × ℚ)
  | [], key, r => [(key, r)]
  | (k, v) :: rest, key, r =>
      if k = key then (key, r) :: rest else (k, v) :: insertRate rest key r

/-- Dictionary assignment in the sources dict `all_sources`. -/
def insertStr : List (String × String) → String → String → List (String × String)
  | [], key, v => [(key, v)]
  | (k, w) :: rest, key, v =>
      if k = key then (key, v) :: rest else (k, w) :: insertStr rest key v

/-- The loop `for pair_key, rate in rates.items(): all_rates[pair_key] = rate`. -/
def mergeBuffer (ar : List (String × ℚ)) : List (String × ℚ) → List (String × ℚ)
  | [] => ar
  | (k, r) :: rest => mergeBuffer (insertRate ar k r) rest

/-- The loop `for pair_key, rate in rates.items(): all_sources[pair_key] = source`. -/
def mergeSources (as : List (String × String)) (rates : List (String × ℚ))
    (label : String) : List (String × String) :=
  match rates with
  | [] => as
  | (k, _) :: rest => mergeSources (insertStr as k label) rest label

/-- Accumulator of the polling loop of `run_update` (`updater.py` lines
71-122): merge buffer, sources dict, history records written so far
(pair key, rate, source), and collected error messages. -/
structure PollAcc where
  all_rates : List (String × ℚ)
  all_sources : List (String × String)
  history : List (String × ℚ × String)
  errors : List String

/-- The client polling loop of `run_update` (`updater.py` lines 76-122):
on success, merge the fetched rates, tag their sources and append one
history record per pair; on failure, append one error message and continue
with the next client. -/
def pollClients : List Client → PollAcc → PollAcc
  | [], acc => acc
  | c :: rest, acc =>
      match c.fetch with
      | .ok rates =>
          pollClients rest
            { all_rates := mergeBuffer acc.all_rates rates,
              all_sources := mergeSources acc.all_sources rates c.label,
              history := acc.history ++ rates.map (fun p => (p.1, p.2, c.label)),
              errors := acc.errors }
      | .error e =>
          pollClients rest { acc with errors := acc.errors ++ [c.name ++ ": " ++ e] }

/-- The summary dict returned by `run_update` (`updater.py` lines 134-140). -/
structure UpdateResult where
  success : Bool
  total_pairs : ℕ
  sources : List (String × String)
  errors : List String
  timestamp : ℕ
deriving Repr

/-- Full observable outcome of one `run_update` call: the returned summary
(or the raised `ApiRequestError` message), the state of the rates cache
after the call, and the history records appended during the call. -/
structure UpdateOut where
  result : Except String UpdateResult
  cache : RatesCache
  history : List (String × ℚ × String)

/-- The message of the fatal aggregated error (`updater.py` line 126). -/
def allFailedMsg : String := "Не удалось получить курсы ни от одного источника"

/-- Embedding of `RatesUpdater.run_update` (`updater.py` lines 53-147): poll every
client, fail fatally when the merge buffer is empty, otherwise merge the
buffer into the persisted cache and return the summary. -/
def run_update (clients : List Client) (cache : RatesCache) (now : ℕ) : UpdateOut :=
  let acc := pollClients clients ⟨[], [], [], []⟩
  if acc.all_rates.isEmpty then
    { result := .error allFailedMsg, cache := cache, history := acc.history }
  else
    { result := .ok
        { success := acc.errors.isEmpty || !acc.all_rates.isEmpty,
          total_pairs := acc.all_rates.length,
          sources := acc.all_sources,
          errors := acc.errors,
          timestamp := now },
      cache := update_rates_cache cache acc.all_rates
        (fun k => lookupStr acc.all_sources k) now,
      history := acc.history }

/-! ## The resolver (`core/usecases.py`)

The resolver's `rates.json` is a flat dictionary mapping `"BASE_QUOTE"` keys
to `{"rate": ..., "updated_at": ...}` entries (no per-entry source field),
plus a `last_refresh` key. -/

/-- A resolver-side cache entry, as written by `_update_rate_in_cache`
(`usecases.py` lines 621-645). -/
structure CoreEntry where
  rate : ℚ
  updated_at : Option ℕ
deriving DecidableEq, Repr

/-- The flat `rates.json` dictionary of the resolver. -/
abbrev CorePairs := List (String × CoreEntry)

/-- Dictionary lookup combined with the guard
`key in rates_data and "rate" in rates_data[key]`. -/
def lookupCore : CorePairs → String → Option CoreEntry
  | [], _ => none
  | (k, e) :: rest, key => if k = key then some e else lookupCore rest key

/-- Dictionary assignment `rates_data[key] = {...}`. -/
def insertCore : CorePairs → String → CoreEntry → CorePairs
  | [], key, e => [(key, e)]
  | (k, e') :: rest, key, e =>
      if k = key then (key, e) :: rest else (k, e') :: insertCore rest key e

/-- The resolver's in-memory view of `rates.json`. -/
structure CoreCache where
  pairs : CorePairs
  last_refresh : Option ℕ
deriving DecidableEq, Repr

/-- The pair key `f"{from_currency}_{to_currency}"`. -/
def pairKey (fc tc : String) : String := fc ++ "_" ++ tc

/-- ASCII upper-casing of one character, as done by `str.upper()` on the
currency codes in play. -/
def upperChar (c : Char) : Char :=
  if 'a' ≤ c ∧ c ≤ 'z' then Char.ofNat (c.toNat - 32) else c

/-- Whitespace test for `str.strip()`. -/
def isSpaceChar (c : Char) : Bool := c = ' ' ∨ c = '\t' ∨ c = '\n' ∨ c = '\r'

/-- The normalization `code.strip().upper()` of `get_currency`
(`core/currencies.py` line 70). -/
def normalizeCode (s : String) : String :=
  ⟨(((s.data.dropWhile isSpaceChar).reverse.dropWhile isSpaceChar).reverse).map upperChar⟩

/-- The currency registry initialised by `_initialize_currencies`
(`core/currencies.py` lines 16-52). -/
def currencyRegistry : List String := ["USD", "EUR", "RUB", "BTC", "ETH"]

/-- Embedding of `get_currency` (`core/currencies.py` lines 55-74), reduced to the code
it returns: normalize, then look the code up in the registry;
`none` models `CurrencyNotFoundError`. -/
def getCurrency (code : String) : Option String :=
  let c := normalizeCode code
  if currencyRegistry.contains c then some c else none

/-- Embedding of `_is_rate_fresh` (`usecases.py` lines 597-618): an absent or
unparseable timestamp is never fresh; otherwise fresh means
`now - updated_at < ttl` (as a signed comparison, since a future timestamp
gives a negative age in Python). -/
def is_rate_fresh (updated_at : Option ℕ) (now ttl : ℕ) : Bool :=
  match updated_at with
  | none => false
  | some t => decide ((now : ℤ) - t < ttl)

/-- The fixed stub rates of `_get_rate_from_stub` and the identical
`fallback_rates` table (`usecases.py` lines 663-669): each value is the
currency's price in USD. -/
def fallback_rates : List (String × ℚ) :=
  [("USD", 1), ("EUR", 11/10), ("BTC", 45000), ("ETH", 3000), ("RUB", 11/1000)]

/-- Lookup in the stub table. -/
def lookupRate : List (String × ℚ) → String → Option ℚ
  | [], _ => none
  | (k, v) :: rest, key => if k = key then some v else lookupRate rest key

/-- Embedding of `_get_rate_from_stub` (`usecases.py` lines 648-681): `1.0` for equal
currencies, else cross through USD when both codes are in the table;
`none` models the `ValueError`. -/
def get_rate_from_stub (fc tc : String) : Option ℚ :=
  if fc = tc then some 1
  else
    match lookupRate fallback_rates fc, lookupRate fallback_rates tc with
    | some fromToUsd, some toInUsd => some (fromToUsd * (1 / toInUsd))
    | _, _ => none

/-- Embedding of `_update_rate_in_cache` (`usecases.py` lines 621-645): write the entry
under the forward key with the current timestamp, stamp `last_refresh`,
and save the whole file. -/
def update_rate_in_cache (fc tc : String) (rate : ℚ) (cache : CoreCache)
    (now : ℕ) : CoreCache :=
  { pairs := insertCore cache.pairs (pairKey fc tc) { rate := rate, updated_at := some now },
    last_refresh := some now }

/-- The expression `reverse_rate = 1.0 / rate if rate != 0 else 0.0`
(`usecases.py` line 779). -/
def reverseOf (rate : ℚ) : ℚ := if rate ≠ 0 then 1 / rate else 0

/-- The exceptions `get_rate` can raise. -/
inductive GetRateErr where
  | currencyNotFound (code : String)
  | apiRequestError
deriving DecidableEq, Repr

deriving instance DecidableEq for Except

/-- The dictionary returned by `get_rate` (`usecases.py` lines 781-787). -/
structure GetRateResult where
  from_currency : String
  to_currency : String
  rate : ℚ
  updated_at : ℕ
  reverse_rate : ℚ
deriving DecidableEq, Repr

/-- Full observable outcome of one `get_rate` call: the returned dict or
raised exception, the state of `rates.json` after the call, the number of
cache writes (`save_json` calls) performed, and the number of calls to the
configured rate source. -/
structure GetRateOut where
  result : Except GetRateErr GetRateResult
  cache : CoreCache
  writes : ℕ
  fetches : ℕ
deriving DecidableEq, Repr

/-- The refresh block of `get_rate` (`usecases.py` lines 749-776), entered
when the forward entry is absent or stale: call the configured rate source
(`_get_rate_from_stub` in the source, behind a `TODO` to swap in the parser
service); on success persist the forward entry; on `ValueError` fall back
to the cached inverse entry, which backfills the forward key only when it
is itself fresh; otherwise raise `ApiRequestError`.
Note `rate = 1.0 / reverse_rate` on line 761 is unguarded in Python (a zero
cached inverse rate raises `ZeroDivisionError`); in `ℚ`, `1 / 0 = 0`.
The claims only exercise nonzero rates. -/
def refreshRate (src : String → String → Option ℚ) (fc tc : String)
    (cache : CoreCache) (now ttl : ℕ) : GetRateOut :=
  match src fc tc with
  | some r =>
      { result := .ok { from_currency := fc, to_currency := tc, rate := r,
                        updated_at := now, reverse_rate := reverseOf r },
        cache := update_rate_in_cache fc tc r cache now,
        writes := 1, fetches := 1 }
  | none =>
      match lookupCore cache.pairs (pairKey tc fc) with
      | some re =>
          if is_rate_fresh re.updated_at now ttl then
            let r := 1 / re.rate
            { result := .ok { from_currency := fc, to_currency := tc, rate := r,
                              updated_at := now, reverse_rate := reverseOf r },
              cache := update_rate_in_cache fc tc r cache now,
              writes := 1, fetches := 1 }
          else
            { result := .error .apiRequestError, cache := cache, writes := 0, fetches := 1 }
      | none =>
          { result := .error .apiRequestError, cache := cache, writes := 0, fetches := 1 }

/-- Embedding of `get_rate` (`usecases.py` lines 684-787), with the rate source
abstracted as `src` (the spec's `computeRate` collaborator; the source
instantiates it with the stub, see `get_rate`): validate both codes,
short-circuit equal currencies, return a fresh forward entry unchanged,
else refresh. -/
def get_rate_with (src : String → String → Option ℚ) (fc0 tc0 : String)
    (cache : CoreCache) (now ttl : ℕ) : GetRateOut :=
  match getCurrency fc0 with
  | none => { result := .error (.currencyNotFound fc0), cache := cache, writes := 0, fetches := 0 }
  | some fc =>
      match getCurrency tc0 with
      | none => { result := .error (.currencyNotFound tc0), cache := cache, writes := 0, fetches := 0 }
      | some tc =>
          if fc = tc then
            { result := .ok { from_currency := fc, to_currency := tc, rate := 1,
                              updated_at := now, reverse_rate := 1 },
              cache := cache, writes := 0, fetches := 0 }
          else
            match lookupCore cache.pairs (pairKey fc tc) with
            | some e =>
                if is_rate_fresh e.updated_at now ttl then
                  { result := .ok { from_currency := fc, to_currency := tc,
                                    rate := e.rate,
                                    updated_at := e.updated_at.getD now,
                                    reverse_rate := reverseOf e.rate },
                    cache := cache, writes := 0, fetches := 0 }
                else refreshRate src fc tc cache now ttl
            | none => refreshRate src fc tc cache now ttl

/-- Embedding of `get_rate` as in the source: the configured rate source is
`_get_rate_from_stub` (`usecases.py` line 752). -/
def get_rate (fc0 tc0 : String) (cache : CoreCache) (now ttl : ℕ) : GetRateOut :=
  get_rate_with get_rate_from_stub fc0 tc0 cache now ttl

/-- The empty resolver cache. -/
def emptyCoreCache : CoreCache := { pairs := [], last_refresh := none }

/-! ## Helper lemmas about the dictionary operations -/

theorem lookupPair_insertPair (ps : Pairs) (k key : String) (e : RateEntry) :
    lookupPair (insertPair ps k e) key =
      if k = key then some e else lookupPair ps key := by
  induction ps with
  | nil => simp [insertPair, lookupPair]
  | cons hd tl ih =>
      obtain ⟨k', e'⟩ := hd
      by_cases hk : k' = k
      · subst hk
        by_cases hkey : k' = key <;> simp [insertPair, lookupPair, hkey]
      · by_cases hkey : k' = key
        · subst hkey
          have : ¬ k = k' := fun h => hk h.symm
          simp [insertPair, lookupPair, hk, this]
        · simp [insertPair, lookupPair, hk, hkey, ih]

theorem lookupPair_mergeRates_not_mem (rates : List (String × ℚ))
    (ps : Pairs) (sources : String → Option String) (now : ℕ) (key : String)
    (h : key ∉ rates.map Prod.fst) :
    lookupPair (mergeRates ps rates sources now) key = lookupPair ps key := by
  induction rates generalizing ps with
  | nil => simp [mergeRates]
  | cons hd tl ih =>
      obtain ⟨k, r⟩ := hd
      simp only [List.map_cons, List.mem_cons, not_or] at h
      obtain ⟨hk, htl⟩ := h
      have hk' : k ≠ key := fun h' => hk h'.symm
      by_cases hupd : shouldUpdate (lookupPair ps k) now
      · simp only [mergeRates, hupd, if_true]
        rw [ih _ htl, lookupPair_insertPair, if_neg hk']
      · simp only [mergeRates, hupd, if_false]
        exact ih _ htl

theorem lookupPair_mergeRates_mem (rates : List (String × ℚ))
    (ps : Pairs) (sources : String → Option String) (now : ℕ) (key : String) (r : ℚ)
    (hnodup : (rates.map Prod.fst).Nodup) (hmem : (key, r) ∈ rates) :
    lookupPair (mergeRates ps rates sources now) key =
      if shouldUpdate (lookupPair ps key) now then
        some ⟨r, some now, (sources key).getD "Unknown"⟩
      else lookupPair ps key := by
  induction rates generalizing ps with
  | nil => cases hmem
  | cons hd tl ih =>
      obtain ⟨k, r'⟩ := hd
      simp only [List.map_cons, List.nodup_cons] at hnodup
      obtain ⟨hknotin, hnodup'⟩ := hnodup
      by_cases hk : k = key
      · subst hk
        have hr : r' = r := by
          rcases List.mem_cons.mp hmem with h | h
          · exact congrArg Prod.snd h.symm
          · exact absurd (List.mem_map.mpr ⟨(k, r), h, rfl⟩) hknotin
        subst hr
        by_cases hupd : shouldUpdate (lookupPair ps k) now
        · simp only [mergeRates, hupd, if_true]
          rw [lookupPair_mergeRates_not_mem _ _ _ _ _ hknotin,
            lookupPair_insertPair, if_pos rfl]
        · simp only [mergeRates, hupd, if_false]
          exact lookupPair_mergeRates_not_mem _ _ _ _ _ hknotin
      · have hmem' : (key, r) ∈ tl := by
          rcases List.mem_cons.mp hmem with h | h
          · exact absurd (congrArg Prod.fst h.symm) hk
          · exact h
        by_cases hupd : shouldUpdate (lookupPair ps k) now
        · simp only [mergeRates, hupd, if_true]
          rw [ih _ hnodup' hmem', lookupPair_insertPair, if_neg hk]
        · simp only [mergeRates, hupd, if_false]
          exact ih _ hnodup' hmem'

/-! ## Claim C1 -/

/-- C1 counterexample: with an existing cached entry whose timestamp equals
the new observation's timestamp (both `100`), the spec's condition "the
existing entry's observed timestamp is not strictly newer than the new
observation's timestamp" holds, yet `update_rates_cache` keeps the old
entry (rate `2` from source `"A"`) instead of writing the new value `3`:
ties favor the existing entry, not the update. -/
theorem claim_C1_counterexample :
    ¬ (100 < 100) ∧
    lookupPair (update_rates_cache ⟨[("BTC_USD", ⟨2, some 100, "A"⟩)], some 0⟩
        [("BTC_USD", 3)] (fun _ => some "B") 100).pairs "BTC_USD"
      = some ⟨2, some 100, "A"⟩ := by
  exact ⟨by decide, by decide⟩

/-- C1 (amended): during `RatesStorage.update_rates_cache`, for every
pair-key in the fetched rates the new value replaces the cached value
exactly when there is no existing entry, or the existing entry's timestamp
is missing or unparseable, or the existing timestamp is *strictly older*
than the new observation's timestamp; when the two timestamps are equal the
existing entry is kept (ties favor the existing entry). -/
theorem claim_C1_merge_recency_amended (cache : RatesCache)
    (rates : List (String × ℚ)) (sources : String → Option String) (now : ℕ)
    (key : String) (r : ℚ)
    (hnodup : (rates.map Prod.fst).Nodup) (hmem : (key, r) ∈ rates) :
    ((∀ e t, lookupPair cache.pairs key = some e → e.updated_at = some t → t < now) →
      lookupPair (update_rates_cache cache rates sources now).pairs key =
        some ⟨r, some now, (sources key).getD "Unknown"⟩) ∧
    (∀ e t, lookupPair cache.pairs key = some e → e.updated_at = some t → now ≤ t →
      lookupPair (update_rates_cache cache rates sources now).pairs key = some e) := by
  constructor
  · intro h
    have hupd : shouldUpdate (lookupPair cache.pairs key) now = true := by
      cases hl : lookupPair cache.pairs key with
      | none => simp [shouldUpdate]
      | some e =>
          cases ht : e.updated_at with
          | none => simp [shouldUpdate, ht]
          | some t =>
              have := h e t hl ht
              simp [shouldUpdate, ht, this]
    unfold update_rates_cache
    rw [lookupPair_mergeRates_mem _ _ _ _ _ _ hnodup hmem, if_pos hupd]
  · intro e t hl ht hle
    have hupd : shouldUpdate (lookupPair cache.pairs key) now = false := by
      simp [shouldUpdate, hl, ht]
      omega
    unfold update_rates_cache
    rw [lookupPair_mergeRates_mem _ _ _ _ _ _ hnodup hmem, if_neg (by simp [hupd]), hl]

/-- Witness for C1 (amended): a strictly older cached entry (timestamp
`10` against new timestamp `100`) is replaced by the new observation. -/
theorem claim_C1_witness :
    lookupPair (update_rates_cache ⟨[("BTC_USD", ⟨2, some 10, "A"⟩)], some 0⟩
        [("BTC_USD", 3)] (fun _ => some "B") 100).pairs "BTC_USD"
      = some ⟨3, some 100, "B"⟩ := by
  have h := (claim_C1_merge_recency_amended
    ⟨[("BTC_USD", ⟨2, some 10, "A"⟩)], some 0⟩ [("BTC_USD", 3)]
    (fun _ => some "B") 100 "BTC_USD" 3 (by decide) (by decide)).1
  exact h (by
    intro e t he ht
    simp [lookupPair] at he
    subst he
    simp at ht
    omega)

/-! ## Claim C2 -/

theorem pollClients_all_fail (clients : List Client) (acc : PollAcc)
    (h : ∀ c ∈ clients, ∃ e, c.fetch = .error e) :
    (pollClients clients acc).all_rates = acc.all_rates ∧
    (pollClients clients acc).all_sources = acc.all_sources ∧
    (pollClients clients acc).history = acc.history := by
  induction clients generalizing acc with
  | nil => simp [pollClients]
  | cons c rest ih =>
      obtain ⟨e, he⟩ := h c (List.mem_cons_self _ _)
      simp only [pollClients, he]
      exact ih _ (fun c' hc' => h c' (List.mem_cons_of_mem _ hc'))

/-- C2: when every configured source client fails during a `run_update`
cycle, the merge buffer stays empty, so `run_update` raises the fatal
aggregated `ApiRequestError` and the persisted rates cache is left exactly
as it was (no write happens, and no history record is appended either). -/
theorem claim_C2_all_sources_fail (clients : List Client) (cache : RatesCache)
    (now : ℕ) (h : ∀ c ∈ clients, ∃ e, c.fetch = .error e) :
    (run_update clients cache now).result = .error allFailedMsg ∧
    (run_update clients cache now).cache = cache ∧
    (run_update clients cache now).history = [] := by
  obtain ⟨har, _, hh⟩ := pollClients_all_fail clients ⟨[], [], [], []⟩ h
  unfold run_update
  simp [har, hh]

/-- Witness for C2: two failing clients leave a one-entry cache untouched
and yield the aggregated error. -/
theorem claim_C2_witness :
    (run_update
        [⟨"CoinGeckoClient", "CoinGecko", .error "network down"⟩,
         ⟨"ExchangeRateApiClient", "ExchangeRate-API", .error "status 500"⟩]
        ⟨[("BTC_USD", ⟨45000, some 3, "CoinGecko"⟩)], some 3⟩ 9).result
      = .error allFailedMsg ∧
    (run_update
        [⟨"CoinGeckoClient", "CoinGecko", .error "network down"⟩,
         ⟨"ExchangeRateApiClient", "ExchangeRate-API", .error "status 500"⟩]
        ⟨[("BTC_USD", ⟨45000, some 3, "CoinGecko"⟩)], some 3⟩ 9).cache
      = ⟨[("BTC_USD", ⟨45000, some 3, "CoinGecko"⟩)], some 3⟩ := by
  have h := claim_C2_all_sources_fail
    [⟨"CoinGeckoClient", "CoinGecko", .error "network down"⟩,
     ⟨"ExchangeRateApiClient", "ExchangeRate-API", .error "status 500"⟩]
    ⟨[("BTC_USD", ⟨45000, some 3, "CoinGecko"⟩)], some 3⟩ 9
    (by
      intro c hc
      simp only [List.mem_cons, List.not_mem_nil, or_false] at hc
      rcases hc with rfl | rfl
      · exact ⟨"network down", rfl⟩
      · exact ⟨"status 500", rfl⟩)
  exact ⟨h.1, h.2.1⟩

/-! ## Claim C10 -/

/-- C10: whenever `run_update` returns normally, the returned summary has
`success = true` and `total_pairs ≥ 1`; since the only `False`-producing
expression is unreachable (`len(errors) == 0 or len(all_rates) > 0` is
evaluated only after the emptiness check), the flag never distinguishes a
clean cycle from a completed-with-errors cycle. -/
theorem claim_C10_success_always_true (clients : List Client)
    (cache : RatesCache) (now : ℕ) (res : UpdateResult)
    (h : (run_update clients cache now).result = .ok res) :
    res.success = true ∧ 1 ≤ res.total_pairs := by
  simp only [run_update] at h
  cases har : (pollClients clients ⟨[], [], [], []⟩).all_rates with
  | nil => rw [har] at h; simp at h
  | cons p tl =>
      rw [har] at h
      simp only [List.isEmpty_cons, Bool.false_eq_true, if_false, Except.ok.injEq] at h
      subst h
      refine ⟨?_, ?_⟩
      · simp
      · simp

/-- Witness for C10: a cycle with one failing and one succeeding client
returns `success = true` and one pair. -/
theorem claim_C10_witness :
    ({ success := true, total_pairs := 1,
       sources := [("BTC_USD", "CoinGecko")],
       errors := ["ExchangeRateApiClient: down"],
       timestamp := 7 } : UpdateResult).success = true ∧
    1 ≤ ({ success := true, total_pairs := 1,
           sources := [("BTC_USD", "CoinGecko")],
           errors := ["ExchangeRateApiClient: down"],
           timestamp := 7 } : UpdateResult).total_pairs :=
  claim_C10_success_always_true
    [⟨"CoinGeckoClient", "CoinGecko", .ok [("BTC_USD", 45000)]⟩,
     ⟨"ExchangeRateApiClient", "ExchangeRate-API", .error "down"⟩]
    ⟨[], none⟩ 7 _ rfl

/-! ## Claim C8 -/

theorem insertRate_not_mem (ar : List (String × ℚ)) (k : String) (r : ℚ)
    (h : k ∉ ar.map Prod.fst) : insertRate ar k r = ar ++ [(k, r)] := by
  induction ar with
  | nil => rfl
  | cons hd tl ih =>
      obtain ⟨k', r'⟩ := hd
      simp only [List.map_cons, List.mem_cons, not_or] at h
      have hne : ¬ k' = k := fun h' => h.1 h'.symm
      simp [insertRate, hne, ih h.2]

theorem mergeBuffer_disjoint (rates : List (String × ℚ)) (ar : List (String × ℚ))
    (h : (ar.map Prod.fst ++ rates.map Prod.fst).Nodup) :
    mergeBuffer ar rates = ar ++ rates := by
  induction rates generalizing ar with
  | nil => simp [mergeBuffer]
  | cons hd tl ih =>
      obtain ⟨k, r⟩ := hd
      have hk : k ∉ ar.map Prod.fst := by
        intro hmem
        exact List.disjoint_of_nodup_append h hmem (List.mem_cons_self _ _)
      rw [mergeBuffer, insertRate_not_mem _ _ _ hk, ih]
      · simp
      · simpa [List.append_assoc] using h

theorem lookupStr_insertStr (as : List (String × String)) (k key v : String) :
    lookupStr (insertStr as k v) key =
      if k = key then some v else lookupStr as key := by
  induction as with
  | nil => simp [insertStr, lookupStr]
  | cons hd tl ih =>
      obtain ⟨k', v'⟩ := hd
      by_cases hk : k' = k
      · subst hk
        by_cases hkey : k' = key <;> simp [insertStr, lookupStr, hkey]
      · by_cases hkey : k' = key
        · subst hkey
          have : ¬ k = k' := fun h => hk h.symm
          simp [insertStr, lookupStr, hk, this]
        · simp [insertStr, lookupStr, hk, hkey, ih]

theorem lookupStr_mergeSources (rates : List (String × ℚ))
    (as : List (String × String)) (label key : String)
    (h : lookupStr as key = some label ∨ key ∈ rates.map Prod.fst) :
    lookupStr (mergeSources as rates label) key = some label := by
  induction rates generalizing as with
  | nil =>
      rcases h with h | h
      · exact h
      · cases h
  | cons hd tl ih =>
      obtain ⟨k, r⟩ := hd
      rw [mergeSources]
      apply ih
      by_cases hk : k = key
      · left; rw [lookupStr_insertStr, if_pos hk]
      · rcases h with h | h
        · left; rw [lookupStr_insertStr, if_neg hk]; exact h
        · simp only [List.map_cons, List.mem_cons] at h
          rcases h with h | h
          · exact absurd h.symm hk
          · right; exact h

/-- C8: when exactly one of two configured sources fails while the other
succeeds, `run_update` completes without raising, records exactly one
error entry, reports `total_pairs` equal to the number of unique pair-keys
of the surviving source, and merges the surviving source's pairs (each
labelled with that source) into the persisted cache via
`update_rates_cache`. -/
theorem claim_C8_partial_failure (cf cs : Client) (e : String)
    (rates : List (String × ℚ)) (cache : RatesCache) (now : ℕ)
    (clients : List Client)
    (hcf : cf.fetch = .error e) (hcs : cs.fetch = .ok rates)
    (hne : rates ≠ []) (hnodup : (rates.map Prod.fst).Nodup)
    (horder : clients = [cf, cs] ∨ clients = [cs, cf]) :
    ∃ res : UpdateResult,
      (run_update clients cache now).result = .ok res ∧
      res.errors.length = 1 ∧
      res.total_pairs = (rates.map Prod.fst).dedup.length ∧
      res.success = true ∧
      ∃ srcs : String → Option String,
        (run_update clients cache now).cache = update_rates_cache cache rates srcs now ∧
        ∀ p ∈ rates, srcs p.1 = some cs.label := by
  have hbuf : mergeBuffer [] rates = rates :=
    mergeBuffer_disjoint rates [] (by simpa using hnodup)
  have hlen : rates.length = (rates.map Prod.fst).dedup.length := by
    rw [hnodup.dedup, List.length_map]
  have hsrc : ∀ p ∈ rates,
      lookupStr (mergeSources [] rates cs.label) p.1 = some cs.label := by
    intro p hp
    exact lookupStr_mergeSources rates [] cs.label p.1
      (Or.inr (List.mem_map.mpr ⟨p, hp, rfl⟩))
  have hemp : rates.isEmpty = false := by
    cases rates with
    | nil => exact absurd rfl hne
    | cons p tl => rfl
  have hacc : pollClients clients ⟨[], [], [], []⟩ =
      ⟨mergeBuffer [] rates, mergeSources [] rates cs.label,
       rates.map (fun p => (p.1, p.2, cs.label)),
       [cf.name ++ ": " ++ e]⟩ := by
    rcases horder with rfl | rfl <;> simp [pollClients, hcf, hcs]
  have hrun : run_update clients cache now =
      { result := .ok { success := true, total_pairs := rates.length,
                        sources := mergeSources [] rates cs.label,
                        errors := [cf.name ++ ": " ++ e], timestamp := now },
        cache := update_rates_cache cache rates
          (fun k => lookupStr (mergeSources [] rates cs.label) k) now,
        history := rates.map (fun p => (p.1, p.2, cs.label)) } := by
    simp [run_update, hacc, hbuf, hemp]
  exact ⟨_, by rw [hrun], by simp, by simpa using hlen, rfl,
    ⟨fun k => lookupStr (mergeSources [] rates cs.label) k, by rw [hrun], hsrc⟩⟩

/-- Witness for C8: CoinGecko fails, ExchangeRate-API survives with one
pair; the summary reports one error and one merged pair. -/
theorem claim_C8_witness :
    (run_update
        [⟨"CoinGeckoClient", "CoinGecko", .error "network down"⟩,
         ⟨"ExchangeRateApiClient", "ExchangeRate-API", .ok [("EUR_USD", 2)]⟩]
        ⟨[], none⟩ 7).result.map
      (fun res => (res.errors.length, res.total_pairs, res.success))
      = .ok (1, 1, true) := by
  obtain ⟨res, h1, h2, h3, h4, -⟩ := claim_C8_partial_failure
    ⟨"CoinGeckoClient", "CoinGecko", .error "network down"⟩
    ⟨"ExchangeRateApiClient", "ExchangeRate-API", .ok [("EUR_USD", 2)]⟩
    "network down" [("EUR_USD", 2)] ⟨[], none⟩ 7 _ rfl rfl
    (by decide) (by decide) (Or.inl rfl)
  rw [h1]
  simp only [Except.map, h2, h3, h4]
  decide

/-! ## Claim C9 -/

theorem lookupCore_insertCore (ps : CorePairs) (k key : String) (e : CoreEntry) :
    lookupCore (insertCore ps k e) key =
      if k = key then some e else lookupCore ps key := by
  induction ps with
  | nil => simp [insertCore, lookupCore]
  | cons hd tl ih =>
      obtain ⟨k', e'⟩ := hd
      by_cases hk : k' = k
      · subst hk
        by_cases hkey : k' = key <;> simp [insertCore, lookupCore, hkey]
      · by_cases hkey : k' = key
        · subst hkey
          have : ¬ k = k' := fun h => hk h.symm
          simp [insertCore, lookupCore, hk, this]
        · simp [insertCore, lookupCore, hk, hkey, ih]

theorem lookupPair_mergeRates_cases (rates : List (String × ℚ)) (ps : Pairs)
    (sources : String → Option String) (now : ℕ) (key : String) (e : RateEntry)
    (h : lookupPair (mergeRates ps rates sources now) key = some e) :
    lookupPair ps key = some e ∨
      ∃ r, (key, r) ∈ rates ∧ e = ⟨r, some now, (sources key).getD "Unknown"⟩ := by
  induction rates generalizing ps with
  | nil => exact .inl h
  | cons hd tl ih =>
      obtain ⟨k, r'⟩ := hd
      by_cases hupd : shouldUpdate (lookupPair ps k) now
      · simp only [mergeRates, hupd, if_true] at h
        rcases ih _ h with h' | ⟨r, hr, he⟩
        · rw [lookupPair_insertPair] at h'
          by_cases hk : k = key
          · subst hk
            rw [if_pos rfl] at h'
            exact .inr ⟨r', List.mem_cons_self _ _, (Option.some.inj h').symm⟩
          · rw [if_neg hk] at h'
            exact .inl h'
        · exact .inr ⟨r, List.mem_cons_of_mem _ hr, he⟩
      · simp only [mergeRates, hupd, if_false] at h
        rcases ih _ h with h' | ⟨r, hr, he⟩
        · exact .inl h'
        · exact .inr ⟨r, List.mem_cons_of_mem _ hr, he⟩

/-- C9 counterexample: neither write path validates positivity.
`update_rates_cache` applied to a fetched rate of `-1` (as a client could
deliver after `float(...)` conversion, which performs no sign check) stores
an entry whose rate is not strictly positive. -/
theorem claim_C9_counterexample :
    lookupPair (update_rates_cache ⟨[], none⟩ [("BTC_USD", -1)]
        (fun _ => none) 0).pairs "BTC_USD" = some ⟨-1, some 0, "Unknown"⟩ ∧
    ¬ (0 < (-1 : ℚ)) := by
  exact ⟨by decide, by decide⟩

/-- C9 (amended): the write operations preserve positivity only
conditionally — neither validates `rate > 0`.  If every entry of the prior
cache has a strictly positive rate and every incoming rate is strictly
positive, then after `update_rates_cache` (aggregator merge) every stored
rate is strictly positive, and likewise after `_update_rate_in_cache`
(resolver write) with a strictly positive rate. -/
theorem claim_C9_positivity_amended (cache : RatesCache)
    (rates : List (String × ℚ)) (sources : String → Option String) (now : ℕ)
    (ccache : CoreCache) (fc tc : String) (rate : ℚ) (cnow : ℕ)
    (hcache : ∀ k e, lookupPair cache.pairs k = some e → 0 < e.rate)
    (hrates : ∀ p ∈ rates, 0 < p.2)
    (hccache : ∀ k e, lookupCore ccache.pairs k = some e → 0 < e.rate)
    (hrate : 0 < rate) :
    (∀ k e, lookupPair (update_rates_cache cache rates sources now).pairs k = some e →
      0 < e.rate) ∧
    (∀ k e, lookupCore (update_rate_in_cache fc tc rate ccache cnow).pairs k = some e →
      0 < e.rate) := by
  constructor
  · intro k e h
    unfold update_rates_cache at h
    rcases lookupPair_mergeRates_cases _ _ _ _ _ _ h with h' | ⟨r, hr, he⟩
    · exact hcache k e h'
    · subst he
      exact hrates (k, r) hr
  · intro k e h
    unfold update_rate_in_cache at h
    rw [lookupCore_insertCore] at h
    by_cases hk : pairKey fc tc = k
    · rw [if_pos hk] at h
      cases Option.some.inj h
      exact hrate
    · rw [if_neg hk] at h
      exact hccache k e h

/-- Witness for C9 (amended): merging a positive fetched rate into the
empty cache and writing a positive resolver rate into the empty resolver
cache keep every stored rate positive; in particular the two entries just
written are positive. -/
theorem claim_C9_witness :
    0 < (45000 : ℚ) ∧
    lookupPair (update_rates_cache ⟨[], none⟩ [("BTC_USD", 45000)]
        (fun _ => some "CoinGecko") 3).pairs "BTC_USD"
      = some ⟨45000, some 3, "CoinGecko"⟩ ∧
    lookupCore (update_rate_in_cache "EUR" "USD" 2 emptyCoreCache 5).pairs "EUR_USD"
      = some ⟨2, some 5⟩ := by
  have h := claim_C9_positivity_amended ⟨[], none⟩ [("BTC_USD", 45000)]
    (fun _ => some "CoinGecko") 3 emptyCoreCache "EUR" "USD" 2 5
    (by intro k e hh; simp [lookupPair] at hh)
    (by intro p hp; simp at hp; subst hp; decide)
    (by intro k e hh; simp [emptyCoreCache, lookupCore] at hh)
    (by decide)
  refine ⟨?_, by decide, by decide⟩
  exact h.1 "BTC_USD" ⟨45000, some 3, "CoinGecko"⟩ (by decide)

/-! ## Claim C6 -/

/-- C6: every save of the rates cache or history file stages the complete
new content in the temporary file and swaps it into place with one atomic
replace.  In every outcome the canonical file holds either the old complete
content or the new complete content; on any failure the temporary file is
deleted, the error propagates (`raised = true`) and the canonical file is
untouched; on success the canonical file holds exactly the new content.
The staging step alone never touches the canonical file (crash between
staging and replace leaves the old content intact). -/
theorem claim_C6_atomic_save (data : String) (fs : FS) (w : StageOutcome)
    (r : ReplaceOutcome) :
    ((save_atomic data fs w r).fs.canonical = fs.canonical ∨
     (save_atomic data fs w r).fs.canonical = some data) ∧
    ((save_atomic data fs w r).raised = true →
      (save_atomic data fs w r).fs = ⟨fs.canonical, none⟩) ∧
    ((save_atomic data fs w r).raised = false →
      (save_atomic data fs w r).fs = ⟨some data, none⟩) ∧
    (stageTemp data fs).canonical = fs.canonical := by
  cases w <;> cases r <;>
    simp [save_atomic, stageTemp, atomicReplace, cleanupTemp]

/-- Witness for C6: a failure while staging (with a half-written temp file)
leaves the old canonical content and no temp file; a clean run installs the
new content. -/
theorem claim_C6_witness :
    (save_atomic "new" ⟨some "old", none⟩ (.failMid (some "par")) .ok).fs
      = ⟨some "old", none⟩ ∧
    (save_atomic "new" ⟨some "old", none⟩ .ok .ok).fs = ⟨some "new", none⟩ :=
  ⟨(claim_C6_atomic_save "new" ⟨some "old", none⟩ (.failMid (some "par")) .ok).2.1 rfl,
   (claim_C6_atomic_save "new" ⟨some "old", none⟩ .ok .ok).2.2.1 rfl⟩

/-! ## Claim C7 -/

/-- C7 counterexample: the read path used by the resolver (`load_json` on
`rates.json`, `usecases.py` line 733 via `core/utils.py`) propagates a
parse failure instead of degrading to a cache miss: on an unparseable file
it raises `json.JSONDecodeError` (its own docstring says so). -/
theorem claim_C7_counterexample :
    load_json emptyCoreCache (.corrupt : JFile CoreCache) = .error () := rfl

/-- C7 (amended): the parser-service cache loader
(`RatesStorage._load_rates_cache`) returns the empty cache
(`pairs = {}`, `last_refresh = null`) when the file is absent or
unparseable, and fills a missing `pairs` dictionary on a parsed file; but
on the resolver's read path (`load_json`) only absence degrades (the file
is created with the default content, which is returned) — a parse failure
propagates to the caller. -/
theorem claim_C7_degraded_load_amended :
    load_rates_cache .absent = ⟨[], none⟩ ∧
    load_rates_cache .corrupt = ⟨[], none⟩ ∧
    (∀ lr, load_rates_cache (.valid (none, lr)) = ⟨[], lr⟩) ∧
    (∀ ps lr, load_rates_cache (.valid (some ps, lr)) = ⟨ps, lr⟩) ∧
    (∀ d : CoreCache, load_json d .absent = .ok d) ∧
    (∀ d : CoreCache, load_json d .corrupt = .error ()) :=
  ⟨rfl, rfl, fun _ => rfl, fun _ _ => rfl, fun _ => rfl, fun _ => rfl⟩

/-- Witness for C7 (amended): concrete instances of the loader behaviors. -/
theorem claim_C7_witness :
    load_rates_cache (.valid (none, some 4)) = ⟨[], some 4⟩ ∧
    load_json emptyCoreCache (.absent : JFile CoreCache) = .ok emptyCoreCache :=
  ⟨claim_C7_degraded_load_amended.2.2.1 (some 4),
   claim_C7_degraded_load_amended.2.2.2.2.1 emptyCoreCache⟩

/-! ## Claims C3, C4, C5 (the resolver) -/

theorem refreshRate_write (src : String → String → Option ℚ) (A B : String)
    (cache : CoreCache) (now ttl : ℕ) (r : GetRateResult) (c1 : CoreCache)
    (h : refreshRate src A B cache now ttl =
      { result := .ok r, cache := c1, writes := 1, fetches := 1 }) :
    c1 = update_rate_in_cache A B r.rate cache now := by
  unfold refreshRate at h
  cases hsrc : src A B with
  | some v =>
      simp only [hsrc, GetRateOut.mk.injEq, Except.ok.injEq] at h
      obtain ⟨h1, h2, -, -⟩ := h
      subst h1
      exact h2.symm
  | none =>
      cases hinv : lookupCore cache.pairs (pairKey B A) with
      | none => simp [hsrc, hinv] at h
      | some re =>
          cases hfr : is_rate_fresh re.updated_at now ttl with
          | false => simp [hsrc, hinv, hfr] at h
          | true =>
              simp only [hsrc, hinv, hfr, if_true, GetRateOut.mk.injEq,
                Except.ok.injEq] at h
              obtain ⟨h1, h2, -, -⟩ := h
              subst h1
              exact h2.symm

/-- C3: when the configured rate source fails for `(A, B)` with `A ≠ B`
(so the refresh path is taken: the forward entry is absent or stale), and
the cache holds an entry under the inverse key `B_A` that is itself fresh
(`now - observedAt < TTL`), `get_rate` derives `rate = 1 / inverseEntry.rate`,
persists it under the forward key `A_B` with the refreshed timestamp `now`
(one cache write), and returns the derived rate. -/
theorem claim_C3_inverse_derivation (src : String → String → Option ℚ)
    (A B : String) (cache : CoreCache) (now ttl : ℕ) (re : CoreEntry)
    (hA : getCurrency A = some A) (hB : getCurrency B = some B) (hne : A ≠ B)
    (hsrc : src A B = none)
    (hfwd : lookupCore cache.pairs (pairKey A B) = none ∨
      ∃ e, lookupCore cache.pairs (pairKey A B) = some e ∧
        is_rate_fresh e.updated_at now ttl = false)
    (hinv : lookupCore cache.pairs (pairKey B A) = some re)
    (hfresh : is_rate_fresh re.updated_at now ttl = true) :
    get_rate_with src A B cache now ttl =
      { result := .ok { from_currency := A, to_currency := B,
                        rate := 1 / re.rate, updated_at := now,
                        reverse_rate := reverseOf (1 / re.rate) },
        cache := update_rate_in_cache A B (1 / re.rate) cache now,
        writes := 1, fetches := 1 } ∧
    lookupCore (get_rate_with src A B cache now ttl).cache.pairs (pairKey A B)
      = some ⟨1 / re.rate, some now⟩ := by
  have hrefresh : refreshRate src A B cache now ttl =
      { result := .ok { from_currency := A, to_currency := B,
                        rate := 1 / re.rate, updated_at := now,
                        reverse_rate := reverseOf (1 / re.rate) },
        cache := update_rate_in_cache A B (1 / re.rate) cache now,
        writes := 1, fetches := 1 } := by
    simp [refreshRate, hsrc, hinv, hfresh]
  have hmain : get_rate_with src A B cache now ttl =
      { result := .ok { from_currency := A, to_currency := B,
                        rate := 1 / re.rate, updated_at := now,
                        reverse_rate := reverseOf (1 / re.rate) },
        cache := update_rate_in_cache A B (1 / re.rate) cache now,
        writes := 1, fetches := 1 } := by
    rcases hfwd with h | ⟨e, he, hstale⟩
    · simp only [get_rate_with, hA, hB, if_neg hne, h]
      exact hrefresh
    · simp only [get_rate_with, hA, hB, if_neg hne, he, hstale]
      exact hrefresh
  refine ⟨hmain, ?_⟩
  rw [hmain]
  simp [update_rate_in_cache, lookupCore_insertCore]

/-- Witness for C3: the source fails for `(USD, BTC)`, the inverse entry
`BTC_USD = 45000` at timestamp `0` is fresh at `now = 10`, `TTL = 300`;
the derived rate `1/45000` is persisted under `USD_BTC` with timestamp
`10`. -/
theorem claim_C3_witness :
    (get_rate_with (fun _ _ => none) "USD" "BTC"
        ⟨[("BTC_USD", ⟨45000, some 0⟩)], some 0⟩ 10 300).writes = 1 ∧
    lookupCore (get_rate_with (fun _ _ => none) "USD" "BTC"
        ⟨[("BTC_USD", ⟨45000, some 0⟩)], some 0⟩ 10 300).cache.pairs "USD_BTC"
      = some ⟨1 / 45000, some 10⟩ := by
  have h := claim_C3_inverse_derivation (fun _ _ => none) "USD" "BTC"
    ⟨[("BTC_USD", ⟨45000, some 0⟩)], some 0⟩ 10 300 ⟨45000, some 0⟩
    (by decide) (by decide) (by decide) rfl
    (Or.inl (by decide)) (by decide) (by decide)
  exact ⟨by rw [h.1], h.2⟩

/-- C4: for any pair `A ≠ B` of registered codes whose cached forward
entry is fresh (`age < TTL`), `get_rate` returns the cached entry unchanged
with no cache write and no call to the rate source; consequently, after a
first call that performed the one fetch-and-write, a second call within the
TTL window is a pure cache read: it returns the rate written by the first
call and performs zero writes and zero fetches, leaving the cache exactly
as the first call left it. -/
theorem claim_C4_fresh_hit_idempotent (src : String → String → Option ℚ)
    (A B : String) (cache : CoreCache) (now now2 ttl : ℕ)
    (hA : getCurrency A = some A) (hB : getCurrency B = some B) (hne : A ≠ B) :
    (∀ e, lookupCore cache.pairs (pairKey A B) = some e →
      is_rate_fresh e.updated_at now ttl = true →
      get_rate_with src A B cache now ttl =
        { result := .ok { from_currency := A, to_currency := B, rate := e.rate,
                          updated_at := e.updated_at.getD now,
                          reverse_rate := reverseOf e.rate },
          cache := cache, writes := 0, fetches := 0 }) ∧
    (∀ r c1, get_rate_with src A B cache now ttl =
        { result := .ok r, cache := c1, writes := 1, fetches := 1 } →
      ((now2 : ℤ) - now < ttl) →
      get_rate_with src A B c1 now2 ttl =
        { result := .ok { from_currency := A, to_currency := B, rate := r.rate,
                          updated_at := now, reverse_rate := reverseOf r.rate },
          cache := c1, writes := 0, fetches := 0 }) := by
  constructor
  · intro e hlook hfr
    simp [get_rate_with, hA, hB, if_neg hne, hlook, hfr]
  · intro r c1 h h2
    have hc1 : c1 = update_rate_in_cache A B r.rate cache now := by
      cases hlook : lookupCore cache.pairs (pairKey A B) with
      | none =>
          simp only [get_rate_with, hA, hB, if_neg hne, hlook] at h
          exact refreshRate_write src A B cache now ttl r c1 h
      | some e =>
          cases hfr : is_rate_fresh e.updated_at now ttl with
          | true => simp [get_rate_with, hA, hB, if_neg hne, hlook, hfr] at h
          | false =>
              simp only [get_rate_with, hA, hB, if_neg hne, hlook, hfr,
                Bool.false_eq_true, if_false] at h
              exact refreshRate_write src A B cache now ttl r c1 h
    have hlook2 : lookupCore c1.pairs (pairKey A B) = some ⟨r.rate, some now⟩ := by
      subst hc1
      simp [update_rate_in_cache, lookupCore_insertCore]
    have hfr2 : is_rate_fresh (some now : Option ℕ) now2 ttl = true := by
      simp [is_rate_fresh]
      exact h2
    simp [get_rate_with, hA, hB, if_neg hne, hlook2, hfr2]

/-- Witness for C4: with the stub source, the first `get_rate(BTC, USD)`
on the empty cache fetches and writes once; the second call 10 seconds
later (TTL 300) performs zero writes and zero fetches and leaves the cache
unchanged. -/
theorem claim_C4_witness :
    (get_rate_with get_rate_from_stub "BTC" "USD"
        (update_rate_in_cache "BTC" "USD" (45000 * (1 / 1)) emptyCoreCache 0)
        10 300).writes = 0 ∧
    (get_rate_with get_rate_from_stub "BTC" "USD"
        (update_rate_in_cache "BTC" "USD" (45000 * (1 / 1)) emptyCoreCache 0)
        10 300).fetches = 0 ∧
    (get_rate_with get_rate_from_stub "BTC" "USD"
        (update_rate_in_cache "BTC" "USD" (45000 * (1 / 1)) emptyCoreCache 0)
        10 300).cache
      = update_rate_in_cache "BTC" "USD" (45000 * (1 / 1)) emptyCoreCache 0 := by
  have h := (claim_C4_fresh_hit_idempotent get_rate_from_stub "BTC" "USD"
    emptyCoreCache 0 10 300 (by decide) (by decide) (by decide)).2
    { from_currency := "BTC", to_currency := "USD", rate := 45000 * (1 / 1),
      updated_at := 0, reverse_rate := reverseOf (45000 * (1 / 1)) }
    (update_rate_in_cache "BTC" "USD" (45000 * (1 / 1)) emptyCoreCache 0)
    rfl (by decide)
  rw [h]
  exact ⟨rfl, rfl, rfl⟩

/-- C5 counterexample: in the claimed scenario (empty cache, TTL 300, stub
source) the immediately following `resolve(USD, BTC)` does not fail — it
returns a result. -/
theorem claim_C5_counterexample :
    (get_rate "USD" "BTC"
        (get_rate "BTC" "USD" emptyCoreCache 0 300).cache 0 300).result.toOption.isSome
      = true := rfl

/-- C5 (amended): starting from the empty cache with TTL 300 and the stub
source, `resolve(BTC, USD)` returns rate `45000`, and the immediately
following `resolve(USD, BTC)` also succeeds, returning `1/45000` computed
directly by the stub (which covers every registered currency via USD
cross-rates), rather than failing for lack of an inverse entry. -/
theorem claim_C5_stub_scenario_amended :
    (get_rate "BTC" "USD" emptyCoreCache 0 300).result =
      .ok { from_currency := "BTC", to_currency := "USD", rate := 45000,
            updated_at := 0, reverse_rate := 1 / 45000 } ∧
    (get_rate "USD" "BTC" (get_rate "BTC" "USD" emptyCoreCache 0 300).cache 0 300).result =
      .ok { from_currency := "USD", to_currency := "BTC", rate := 1 / 45000,
            updated_at := 0, reverse_rate := 45000 } := by
  constructor
  · calc (get_rate "BTC" "USD" emptyCoreCache 0 300).result
        = .ok { from_currency := "BTC", to_currency := "USD",
                rate := 45000 * (1 / 1), updated_at := 0,
                reverse_rate := reverseOf (45000 * (1 / 1)) } := rfl
      _ = .ok { from_currency := "BTC", to_currency := "USD", rate := 45000,
                updated_at := 0, reverse_rate := 1 / 45000 } := by
          norm_num [reverseOf]
  · calc (get_rate "USD" "BTC" (get_rate "BTC" "USD" emptyCoreCache 0 300).cache 0 300).result
        = .ok { from_currency := "USD", to_currency := "BTC",
                rate := 1 * (1 / 45000), updated_at := 0,
                reverse_rate := reverseOf (1 * (1 / 45000)) } := rfl
      _ = .ok { from_currency := "USD", to_currency := "BTC", rate := 1 / 45000,
                updated_at := 0, reverse_rate := 45000 } := by
          norm_num [reverseOf]

end ValutaTradeHub
